import Mathlib

/-!
Shallow embedding of the span-filtering layer in src/src/main.rs
(crate tracing-filtering-test): the MatchStrVisitor field matcher, the
DynamicFieldFilter layer hooks (enabled, on_new_span) and the TCP control
handler (handle_tcp_client), together with proofs about them.
-/

namespace TracingFilter

/-- A typed span-field value, as dispatched by the tracing Visit trait.
The visitor in the source overrides only record_debug (a no-op) and
record_str; every other record method defaults to record_debug, so any
non-string value reaches the visitor only through the no-op path. -/
inductive FieldValue where
  | str (s : String)
  | i64 (n : Int)
  | u64 (n : Nat)
  | boolVal (b : Bool)
  | debugOnly (rendered : String)
  deriving DecidableEq, Repr

/-- Whether a field value is string-typed. -/
def FieldValue.isStr : FieldValue → Bool
  | .str _ => true
  | _ => false

/-- A span value set: the ordered named fields recorded at span creation. -/
abbrev ValueSet := List (String × FieldValue)

/-- Embedding of struct MatchStrVisitor (main.rs lines 69-73). -/
structure MatchStrVisitor where
  field : String
  value : String
  matched : Bool
  deriving DecidableEq, Repr

/-- One visitor step (impl Visit, main.rs lines 75-82): record_str sets
matched when both the field name and the value agree; record_debug and the
defaulted methods for every non-string type change nothing. -/
def recordValue (vis : MatchStrVisitor) (name : String) (val : FieldValue) : MatchStrVisitor :=
  match val with
  | .str s => if name = vis.field ∧ s = vis.value then { vis with matched := true } else vis
  | _ => vis

/-- Embedding of value_in_valueset (main.rs lines 86-94): run the visitor
over every recorded field and read the matched flag. -/
def value_in_valueset (vs : ValueSet) (field value : String) : Bool :=
  (vs.foldl (fun vis p => recordValue vis p.1 p.2) ⟨field, value, false⟩).matched

/-- The filters map of DynamicFieldFilter (main.rs lines 97-100), a
HashMap from field name to required value, embedded as an association
list; insertFilter below gives HashMap insert semantics. -/
abbrev Filters := List (String × String)

/-- HashMap insert semantics (used at main.rs line 163): replace the value
stored under an existing key, otherwise add the new entry. -/
def insertFilter : Filters → String → String → Filters
  | [], k, v => [(k, v)]
  | (k₀, v₀) :: rest, k, v =>
      if k₀ = k then (k, v) :: rest else (k₀, v₀) :: insertFilter rest k v

/-- Outcome of the on_new_span hook: either the thread panics, or the hook
returns having decided whether the new span carries SpanExtDisable. -/
inductive SpanOutcome where
  | panicked (msg : String)
  | decided (suppressed : Bool)
  deriving DecidableEq, Repr

/-- Embedding of on_new_span (main.rs lines 122-143). Its very first
statement is an unconditional panic, so the hook aborts before any of the
inheritance or rule-matching code below it can run. parentSuppressed is
none for a root span, otherwise the parent stored SpanExtDisable flag. -/
def on_new_span (_filters : Filters) (_parentSuppressed : Option Bool)
    (_attrs : ValueSet) : SpanOutcome :=
  SpanOutcome.panicked "on_new_span"

/-- The unreachable remainder of on_new_span (main.rs lines 127-142),
embedded separately: inherit the parent flag when it is set, otherwise
mark the span iff some filter rule matches a string field of attrs. -/
def onNewSpanLogic (filters : Filters) (parentSuppressed : Option Bool)
    (attrs : ValueSet) : Bool :=
  match parentSuppressed with
  | some true => true
  | _ => filters.any fun rule => value_in_valueset attrs rule.1 rule.2

/-- Outcome of the enabled hook. -/
inductive EnabledOutcome where
  | panicked (msg : String)
  | result (b : Bool)
  deriving DecidableEq, Repr

/-- Embedding of enabled (main.rs lines 113-120). Its first statement is an
unconditional panic. currentSuppressed is none when there is no active
span, otherwise the active span stored SpanExtDisable flag. -/
def enabled (_currentSuppressed : Option Bool) : EnabledOutcome :=
  EnabledOutcome.panicked "enabled"

/-- The unreachable remainder of enabled (main.rs lines 115-119): true when
there is no active span, otherwise true iff the active span does not carry
SpanExtDisable. -/
def enabledLogic (currentSuppressed : Option Bool) : Bool :=
  match currentSuppressed with
  | some suppressed => !suppressed
  | none => true

/-- Result of one stream.read call in handle_tcp_client: a successful
read of a decoded chunk (a graceful peer close is the successful read of
an empty chunk), or an I/O error. -/
inductive ReadResult where
  | ok (chunk : String)
  | err (e : String)
  deriving DecidableEq, Repr

/-- Outcome of one iteration of the handle_tcp_client loop. -/
inductive StepOutcome where
  | next (filters : Filters)
  | panicked (msg : String)
  | closed
  deriving DecidableEq, Repr

/-- The panic message produced by unwrap on a failed reload-handle modify. -/
def unwrapMsg : String := "called Result::unwrap() on an Err value: SubscriberGone"

/-- Accumulator pass over the characters of the chunk: acc holds the
characters of the token being built, in reverse. -/
def tokensAux (acc : List Char) : List Char → List String
  | [] => if acc.isEmpty then [] else [String.mk acc.reverse]
  | c :: cs =>
    if c.isWhitespace then
      if acc.isEmpty then tokensAux [] cs
      else String.mk acc.reverse :: tokensAux [] cs
    else tokensAux (c :: acc) cs

/-- split_whitespace: the maximal whitespace-free substrings of the chunk,
in order (no empty tokens). -/
def tokens (s : String) : List String :=
  tokensAux [] s.data

/-- One iteration of the handle_tcp_client loop (main.rs lines 147-176).
modifyOk tells whether the reload handle can publish a mutation (its
modify returns Ok); when it cannot, the unwrap in the source panics. On a
successful read the first whitespace token is dispatched: CLEAR empties
the filters, VRF with an argument inserts the vrf_id rule, anything else
(including VRF without an argument and a blank chunk) is ignored and the
loop continues. On a read error the handler logs and returns. -/
def handleStep (modifyOk : Bool) (filters : Filters) (r : ReadResult) : StepOutcome :=
  match r with
  | .err _ => .closed
  | .ok s =>
    match tokens s with
    | [] => .next filters
    | w :: rest =>
      if w = "CLEAR" then
        if modifyOk then .next [] else .panicked unwrapMsg
      else if w = "VRF" then
        match rest with
        | [] => .next filters
        | id :: _ =>
          if modifyOk then .next (insertFilter filters "vrf_id" id)
          else .panicked unwrapMsg
      else .next filters

/-! ### Properties of the visitor and of value_in_valueset -/

theorem recordValue_field (vis : MatchStrVisitor) (n : String) (val : FieldValue) :
    (recordValue vis n val).field = vis.field := by
  cases val <;> simp only [recordValue]
  split <;> rfl

theorem recordValue_value (vis : MatchStrVisitor) (n : String) (val : FieldValue) :
    (recordValue vis n val).value = vis.value := by
  cases val <;> simp only [recordValue]
  split <;> rfl

theorem recordValue_matched (vis : MatchStrVisitor) (n : String) (val : FieldValue) :
    (recordValue vis n val).matched = true ↔
      vis.matched = true ∨ (n = vis.field ∧ val = FieldValue.str vis.value) := by
  cases val <;> simp only [recordValue] <;>
    first
    | (split <;> simp_all)
    | simp

theorem foldl_record_matched (vs : ValueSet) (vis : MatchStrVisitor) :
    (vs.foldl (fun a p => recordValue a p.1 p.2) vis).matched = true ↔
      vis.matched = true ∨ (vis.field, FieldValue.str vis.value) ∈ vs := by
  induction vs generalizing vis with
  | nil => simp
  | cons hd tl ih =>
    rw [List.foldl_cons, ih, recordValue_matched, recordValue_field, recordValue_value,
      List.mem_cons]
    constructor
    · rintro ((h | ⟨h₁, h₂⟩) | h)
      · exact Or.inl h
      · exact Or.inr (Or.inl (Prod.ext h₁.symm h₂.symm))
      · exact Or.inr (Or.inr h)
    · rintro (h | h | h)
      · exact Or.inl (Or.inl h)
      · exact Or.inl (Or.inr ⟨congrArg Prod.fst h.symm, congrArg Prod.snd h.symm⟩)
      · exact Or.inr h

/-- value_in_valueset holds exactly when the value set records, under the
given field name, the string-typed given value. -/
theorem value_in_valueset_iff (vs : ValueSet) (f v : String) :
    value_in_valueset vs f v = true ↔ (f, FieldValue.str v) ∈ vs := by
  unfold value_in_valueset
  rw [foldl_record_matched]
  simp

/-! ### Properties of the reconstructed decision logic -/

theorem onNewSpanLogic_inherits (filters : Filters) (attrs : ValueSet) :
    onNewSpanLogic filters (some true) attrs = true := rfl

theorem onNewSpanLogic_root_iff (filters : Filters) (attrs : ValueSet) :
    onNewSpanLogic filters none attrs = true ↔
      ∃ rule ∈ filters, (rule.1, FieldValue.str rule.2) ∈ attrs := by
  simp [onNewSpanLogic, List.any_eq_true, value_in_valueset_iff]

/-! ### Properties of insertFilter -/

theorem insertFilter_insertFilter (fs : Filters) (k a b : String) :
    insertFilter (insertFilter fs k a) k b = insertFilter fs k b := by
  induction fs with
  | nil => simp [insertFilter]
  | cons hd tl ih =>
    obtain ⟨k₀, v₀⟩ := hd
    by_cases hk : k₀ = k
    · subst hk
      simp [insertFilter]
    · simp [insertFilter, hk, ih]

theorem filter_insertFilter (fs : Filters) (k v : String)
    (h : (fs.map Prod.fst).Nodup) :
    (insertFilter fs k v).filter (fun p => p.1 == k) = [(k, v)] := by
  induction fs with
  | nil => simp [insertFilter]
  | cons hd tl ih =>
    obtain ⟨k₀, v₀⟩ := hd
    simp only [List.map_cons, List.nodup_cons] at h
    by_cases hk : k₀ = k
    · subst hk
      have htl : tl.filter (fun p => p.1 == k₀) = [] := by
        refine List.filter_eq_nil_iff.mpr fun p hp hpk => h.1 ?_
        have hpk₀ : p.1 = k₀ := by simpa using hpk
        exact hpk₀ ▸ List.mem_map_of_mem Prod.fst hp
      simp [insertFilter, htl]
    · simp [insertFilter, hk, ih h.2]

/-! ### Claim theorems -/

/-- C1: the claim says that when the parent of a new span is suppressed,
on_new_span marks the child suppressed and returns without rule matching.
The hook instead begins with an unconditional panic (main.rs line 123), so
it aborts on every span creation; the unreachable remainder of its body
would have satisfied the claim, as the second conjunct records. -/
theorem c1_on_new_span_panics_before_inheritance :
    on_new_span [("vrf_id", "1")] (some true) [("other", FieldValue.str "x")] =
      SpanOutcome.panicked "on_new_span" ∧
    onNewSpanLogic [("vrf_id", "1")] (some true) [("other", FieldValue.str "x")] = true := by
  decide

/-- C2: the claim says that a root span is marked suppressed iff some rule
of the current snapshot matches one of its string fields. The hook instead
panics before the rule-matching loop (main.rs line 123): at the scenario-2
input, filters vrf_id to 1 and a root span with string field vrf_id = 1,
it panics rather than marking the span; the unreachable remainder would
have satisfied the claim, as the second conjunct records. -/
theorem c2_on_new_span_panics_before_rule_match :
    on_new_span [("vrf_id", "1")] none [("vrf_id", FieldValue.str "1")] =
      SpanOutcome.panicked "on_new_span" ∧
    onNewSpanLogic [("vrf_id", "1")] none [("vrf_id", FieldValue.str "1")] = true := by
  decide

/-- C4: dispatch on the first whitespace token of a successfully read
chunk: CLEAR empties the filter map, VRF with an argument sets the vrf_id
rule to that argument, and any other first token, or a blank chunk, leaves
the filter map unchanged with the loop continuing. -/
theorem c4_control_dispatch (filters : Filters) (s : String) :
    (tokens s = [] → handleStep true filters (.ok s) = .next filters) ∧
    (∀ rest, tokens s = "CLEAR" :: rest → handleStep true filters (.ok s) = .next []) ∧
    (∀ arg rest, tokens s = "VRF" :: arg :: rest →
      handleStep true filters (.ok s) = .next (insertFilter filters "vrf_id" arg)) ∧
    (∀ w rest, tokens s = w :: rest → w ≠ "CLEAR" → w ≠ "VRF" →
      handleStep true filters (.ok s) = .next filters) := by
  refine ⟨fun h => by simp [handleStep, h], fun rest h => by simp [handleStep, h],
    fun arg rest h => by simp [handleStep, h],
    fun w rest h hw₁ hw₂ => by simp [handleStep, h, hw₁, hw₂]⟩

theorem c4_control_dispatch_witness :
    handleStep true [("vrf_id", "9")] (.ok "CLEAR") = .next [] ∧
    handleStep true [] (.ok "VRF 7") = .next (insertFilter [] "vrf_id" "7") ∧
    handleStep true [("vrf_id", "9")] (.ok "bogus input") = .next [("vrf_id", "9")] ∧
    handleStep true [("vrf_id", "9")] (.ok " \n ") = .next [("vrf_id", "9")] :=
  ⟨(c4_control_dispatch [("vrf_id", "9")] "CLEAR").2.1 [] (by decide),
   (c4_control_dispatch [] "VRF 7").2.2.1 "7" [] (by decide),
   (c4_control_dispatch [("vrf_id", "9")] "bogus input").2.2.2 "bogus" ["input"]
     (by decide) (by decide) (by decide),
   (c4_control_dispatch [("vrf_id", "9")] " \n ").1 (by decide)⟩

/-- C5: the claim says enabled returns true when there is no active span
and false exactly when the active span is marked suppressed. The hook
instead begins with an unconditional panic (main.rs line 114), so every
enabled query aborts; the unreachable remainder would have satisfied the
claim, as the later conjuncts record. -/
theorem c5_enabled_panics :
    enabled none = EnabledOutcome.panicked "enabled" ∧
    enabledLogic none = true ∧
    enabledLogic (some true) = false ∧
    enabledLogic (some false) = true := by
  decide

/-- C6: a rule never matches a span field whose value is not string-typed,
even when the rule value textually equals the printed field value; the
visitor routes every non-string value through the no-op record_debug, and
value_in_valueset just returns false, never an error. -/
theorem c6_non_string_never_matches (vs : ValueSet) (f v : String)
    (h : (vs.all fun p => !(p.1 == f && p.2.isStr)) = true) :
    value_in_valueset vs f v = false := by
  cases hb : value_in_valueset vs f v
  · rfl
  · exfalso
    have hmem := (value_in_valueset_iff vs f v).mp hb
    have hp := List.all_eq_true.mp h _ hmem
    simp [FieldValue.isStr] at hp

theorem c6_non_string_never_matches_witness :
    value_in_valueset [("vrf_id", FieldValue.i64 7)] "vrf_id" "7" = false :=
  c6_non_string_never_matches [("vrf_id", FieldValue.i64 7)] "vrf_id" "7" (by decide)

/-- C7 counterexample: the claim says a mutation that cannot be published
is reported to the caller as a recoverable error. The handler instead
calls unwrap on the modify result (main.rs lines 155 and 165), so when
modify fails the iteration panics rather than continuing with the filter
map unchanged. -/
theorem c7_recoverable_error_counterexample :
    handleStep false [] (.ok "CLEAR") = .panicked unwrapMsg ∧
    handleStep false [] (.ok "CLEAR") ≠ .next [] := by
  decide

/-- C7 amended: when modify cannot publish a mutation, a CLEAR command or
a VRF command with an argument makes the handler panic via unwrap; the
published snapshot is never partially mutated. -/
theorem c7_modify_failure_panics (filters : Filters) (s : String) :
    (∀ rest, tokens s = "CLEAR" :: rest →
      handleStep false filters (.ok s) = .panicked unwrapMsg) ∧
    (∀ arg rest, tokens s = "VRF" :: arg :: rest →
      handleStep false filters (.ok s) = .panicked unwrapMsg) := by
  refine ⟨fun rest h => ?_, fun arg rest h => ?_⟩ <;> simp [handleStep, h]

theorem c7_modify_failure_panics_witness :
    handleStep false [("vrf_id", "1")] (.ok "CLEAR") = .panicked unwrapMsg ∧
    handleStep false [("vrf_id", "1")] (.ok "VRF 2") = .panicked unwrapMsg :=
  ⟨(c7_modify_failure_panics [("vrf_id", "1")] "CLEAR").1 [] (by decide),
   (c7_modify_failure_panics [("vrf_id", "1")] "VRF 2").2 "2" [] (by decide)⟩

/-- C8: the claim says the read loop moves to the terminal Closed state on
any read error, including the peer closing the connection. A graceful peer
close makes read return Ok with zero bytes, which the handler treats as a
successful read of an empty chunk and keeps looping, so the connection
never reaches Closed on peer close; only the error arm closes, as the last
conjunct records. -/
theorem c8_peer_close_keeps_reading :
    handleStep true [("vrf_id", "1")] (.ok "") = .next [("vrf_id", "1")] ∧
    handleStep true [("vrf_id", "1")] (.ok "") ≠ .closed ∧
    handleStep true [("vrf_id", "1")] (.err "connection reset by peer") = .closed := by
  decide

/-- C9: the filter map keeps at most one rule per field name; after two
VRF commands writing values a then b under the same key, the map holds
exactly one rule for that key, carrying the later value b. -/
theorem c9_last_writer_wins (filters : Filters) (k a b : String)
    (h : (filters.map Prod.fst).Nodup) :
    insertFilter (insertFilter filters k a) k b = insertFilter filters k b ∧
    (insertFilter (insertFilter filters k a) k b).filter (fun p => p.1 == k) = [(k, b)] := by
  refine ⟨insertFilter_insertFilter filters k a b, ?_⟩
  rw [insertFilter_insertFilter]
  exact filter_insertFilter filters k b h

theorem c9_last_writer_wins_witness :
    insertFilter (insertFilter ([] : Filters) "vrf_id" "1") "vrf_id" "2" =
      insertFilter ([] : Filters) "vrf_id" "2" ∧
    (insertFilter (insertFilter ([] : Filters) "vrf_id" "1") "vrf_id" "2").filter
      (fun p => p.1 == "vrf_id") = [("vrf_id", "2")] :=
  c9_last_writer_wins [] "vrf_id" "1" "2" (by decide)

/-- C10: a successfully read chunk whose only token is VRF, with no
argument following it, performs no mutation: the filter map is returned
unchanged and the loop keeps reading. -/
theorem c10_vrf_without_argument (modifyOk : Bool) (filters : Filters) (s : String)
    (h : tokens s = ["VRF"]) :
    handleStep modifyOk filters (.ok s) = .next filters := by
  simp [handleStep, h]

theorem c10_vrf_without_argument_witness :
    handleStep true [("vrf_id", "3")] (.ok "VRF\n") = .next [("vrf_id", "3")] :=
  c10_vrf_without_argument true [("vrf_id", "3")] "VRF\n" (by decide)

end TracingFilter
